import Mathlib

/-
Verification development for the mongo-updater admin backend
(src/backend/main.py).  The MongoDB collections are embedded as lists of
records; each Flask handler becomes a pure function from the store (plus,
for the health endpoint, an environment describing the outcomes of the
network probes) to its JSON response.  Handlers are modelled from the point
after the X-Admin-Secret gate, which the spec treats as an external
collaborator.
-/

namespace Mongo

/-- One document of the `tasks` collection (`compressor_db['tasks']`).
`taskType` embeds the `type` field, `rawFilename` embeds
`params.raw_filename`; optional fields model absent document keys. -/
structure Task where
  id : String
  taskType : String
  status : String
  createdAt : Int
  resultFilename : Option String
  rawFilename : Option String
  resultFileId : Option String
  ipAddress : Option String
deriving DecidableEq

/-- One GridFS metadata document of `fs.files`: its `_id` and its `length`
field (the byte length of the stored blob). -/
structure FsFile where
  id : String
  length : Nat
deriving DecidableEq

/-- One GridFS chunk document of `fs.chunks`; `filesId` embeds the
`files_id` reference to the owning `fs.files` document. -/
structure FsChunk where
  filesId : String
  n : Nat
deriving DecidableEq

/-- One document of the `holidays` collection: its string `_id` plus the
remaining fields as a key/value association list. -/
structure Holiday where
  id : String
  attrs : List (String × String)
deriving DecidableEq

/-- The two logical MongoDB databases visible to the backend: the task
ledger with its GridFS pair, and the holiday calendar. -/
structure Store where
  tasks : List Task
  fsFiles : List FsFile
  fsChunks : List FsChunk
  holidays : List Holiday
deriving DecidableEq

/-! ### GET /get_holidays -/

/-- Response of `get_holidays`: HTTP 400 with an error message, or the
matching records. -/
inductive HolidaysResponse where
  | invalidArg (msg : String)
  | ok (records : List Holiday)
deriving DecidableEq

/-- Python `str(month).zfill(2)`: left-pad with zeros to width 2. -/
def zfill2 (s : String) : String :=
  if 2 ≤ s.length then s else String.mk (List.replicate (2 - s.length) '0') ++ s

/-- Handler of `GET /get_holidays`.  The source builds the regex
`"^" + year + str(month).zfill(2)` and runs `find({"_id": {"$regex": ...}})`;
for the digit-string parameters of the interface an anchored literal regex
is exactly a string-prefix test, which is how the query is embedded.
`none` models an absent query parameter; the empty string is Python-falsy
and is rejected by the same `if not year or not month` check. -/
def get_holidays (s : Store) (year month : Option String) : HolidaysResponse :=
  match year, month with
  | some y, some m =>
    if y == "" || m == "" then .invalidArg "缺少年份或月份參數"
    else
      let pat := y ++ zfill2 m
      .ok (s.holidays.filter (fun h => pat.isPrefixOf h.id))
  | _, _ => .invalidArg "缺少年份或月份參數"

/-- The record list of an `ok` response (empty for an error response). -/
def holidayRecords : HolidaysResponse → List Holiday
  | .ok l => l
  | .invalidArg _ => []

/-! ### POST /update_holiday -/

/-- First value bound to a key in a document, as MongoDB reads a field. -/
def getField (doc : List (String × String)) (k : String) : Option String :=
  (doc.find? (fun p => p.1 == k)).map (fun p => p.2)

/-- MongoDB `$set` of a single field: overwrite the field if the key is
present, append it otherwise. -/
def setField (doc : List (String × String)) (k v : String) : List (String × String) :=
  if doc.any (fun p => p.1 == k) then
    doc.map (fun p => if p.1 == k then (k, v) else p)
  else doc ++ [(k, v)]

/-- MongoDB `{"$set": upd}` applied to a document: every key of `upd` is
written, all other keys are left untouched. -/
def applySet (doc upd : List (String × String)) : List (String × String) :=
  upd.foldl (fun d p => setField d p.1 p.2) doc

/-- Whether a `$set` actually modifies the document (MongoDB reports
`modified_count = 0` when every written value already equals the stored
one). -/
def setChanges (doc upd : List (String × String)) : Bool :=
  upd.any (fun p => getField doc p.1 != some p.2)

/-- Result object of `update_one(..., upsert=True)`: `upserted_id` and
`modified_count`. -/
structure UpdateResult where
  upsertedId : Option String
  modifiedCount : Nat
deriving DecidableEq

/-- `holidays_collection.update_one({"_id": doc_id}, {"$set": upd}, upsert=True)`. -/
def updateOneHoliday (hs : List Holiday) (docId : String)
    (upd : List (String × String)) : List Holiday × UpdateResult :=
  match hs.find? (fun g => g.id == docId) with
  | some h =>
    let newAttrs := applySet h.attrs upd
    (hs.map (fun g => if g.id == docId then { g with attrs := newAttrs } else g),
     ⟨none, if setChanges h.attrs upd then 1 else 0⟩)
  | none => (hs ++ [⟨docId, applySet [] upd⟩], ⟨some docId, 0⟩)

/-- Handler of `POST /update_holiday`.  The body is the parsed JSON object
as a key/value list (`none` models a missing body).  Returns the updated
store, the response message and the HTTP status code. -/
def update_holiday (s : Store) (body : Option (List (String × String))) :
    Store × String × Nat :=
  match body with
  | none => (s, "無效的請求資料", 400)
  | some data =>
    if data.isEmpty then (s, "無效的請求資料", 400)
    else
      match getField data "_id" with
      | none => (s, "無效的請求資料", 400)
      | some docId =>
        let upd := data.filter (fun p => p.1 != "_id")
        let r := updateOneHoliday s.holidays docId upd
        let s1 : Store := { s with holidays := r.1 }
        if r.2.upsertedId.isSome || 0 < r.2.modifiedCount then
          (s1, "資料已成功儲存", 200)
        else (s1, "資料無變動", 200)

/-! ### GET /admin/api/compression-stats -/

/-- Python `round(x, 2)` embedded over ℚ: round half up to two decimal
places. -/
def round2 (q : ℚ) : ℚ := ((round (q * 100) : ℤ) : ℚ) / 100

/-- Response body of `get_compression_stats`. -/
structure StatsResult where
  totalTasks : Nat
  completedTasks : Nat
  failedTasks : Nat
  successRate : ℚ
  storageUsedBytes : Nat
  storageUsedMb : ℚ
deriving DecidableEq

/-- Handler of `GET /admin/api/compression-stats`.  The `$group`/`$sum`
aggregation over `fs.files` yields an empty result list exactly when the
collection is empty; the source then falls back to `0`. -/
def get_compression_stats (s : Store) : StatsResult :=
  let totalTasks := s.tasks.length
  let completedTasks := (s.tasks.filter (fun t => t.status == "完成")).length
  let failedTasks := (s.tasks.filter (fun t => t.status == "失敗")).length
  let storageAgg : Option Nat :=
    if s.fsFiles.isEmpty then none else some ((s.fsFiles.map (fun f => f.length)).sum)
  let storageBytes := storageAgg.getD 0
  { totalTasks := totalTasks
    completedTasks := completedTasks
    failedTasks := failedTasks
    successRate :=
      round2 (if 0 < totalTasks then (completedTasks : ℚ) / (totalTasks : ℚ) * 100 else 0)
    storageUsedBytes := storageBytes
    storageUsedMb := round2 ((storageBytes : ℚ) / (1024 * 1024)) }

/-! ### GET /admin/api/all-files -/

/-- Filter of the `count_documents` call: `type = compress` and
`status = 完成` (completed); the count does not test `result_file_id`. -/
def completedFilter (t : Task) : Bool :=
  t.taskType == "compress" && t.status == "完成"

/-- Filter of the `find` call: additionally requires
`result_file_id: {"$exists": true}`. -/
def completedFileFilter (t : Task) : Bool :=
  t.taskType == "compress" && t.status == "完成" && t.resultFileId.isSome

/-- The `.sort("created_at", -1)` cursor order: stable sort by `created_at`
descending. -/
def sortByCreatedDesc (ts : List Task) : List Task :=
  List.insertionSort (fun a b => b.createdAt ≤ a.createdAt) ts

/-- One element of the `files` array in the response of `get_all_files`. -/
structure FileEntry where
  id : String
  filename : String
  originalFilename : String
  createdAt : Int
  fileSize : Nat
  ipAddress : String
deriving DecidableEq

/-- The per-task join against `fs.files`: look the blob up by
`result_file_id` and read its `length`; a dangling or absent reference
yields size `0`. -/
def lookupFileSize (s : Store) (fid : Option String) : Nat :=
  (fid.bind (fun f => (s.fsFiles.find? (fun g => g.id == f)).map (fun g => g.length))).getD 0

/-- The response row built for one task by `get_all_files`. -/
def fileEntry (s : Store) (t : Task) : FileEntry :=
  { id := t.id
    filename := t.resultFilename.getD "未知"
    originalFilename := t.rawFilename.getD "未知"
    createdAt := t.createdAt
    fileSize := lookupFileSize s t.resultFileId
    ipAddress := t.ipAddress.getD "未知" }

/-- Response body of `get_all_files`. -/
structure PagedResult where
  files : List FileEntry
  total : Nat
  page : Nat
  limit : Nat
  totalPages : Nat
deriving DecidableEq

/-- The filtered completed-file tasks in response order (`created_at`
descending). -/
def completedFilesSorted (s : Store) : List Task :=
  sortByCreatedDesc (s.tasks.filter completedFileFilter)

/-- Handler of `GET /admin/api/all-files` with query parameters `page`
and `limit`: `skip = (page - 1) * limit`, `total` from `count_documents`,
`total_pages = (total + limit - 1) // limit`. -/
def get_all_files (s : Store) (page limit : Nat) : PagedResult :=
  let skip := (page - 1) * limit
  let totalCount := (s.tasks.filter completedFilter).length
  let selected := ((completedFilesSorted s).drop skip).take limit
  { files := selected.map (fileEntry s)
    total := totalCount
    page := page
    limit := limit
    totalPages := (totalCount + limit - 1) / limit }

/-! ### POST /admin/api/batch-delete -/

/-- Hex digit test used by `bson.ObjectId` string validation. -/
def isHexDigit (c : Char) : Bool :=
  c.isDigit || ('a' ≤ c && c ≤ 'f') || ('A' ≤ c && c ≤ 'F')

/-- Whether `ObjectId(tid)` succeeds: a 24-character hexadecimal string. -/
def objectIdValid (tid : String) : Bool :=
  tid.length == 24 && tid.data.all isHexDigit

/-- The ObjectId produced from a hex string, in canonical (lower-case)
form; stored `_id` values are kept canonical in the embedding. -/
def normalizeOid (tid : String) : String := String.mk (tid.data.map Char.toLower)

/-- `fs_files.delete_one({"_id": fid})`: remove the first (with unique ids
the only) metadata record of the blob. -/
def delFsFile (s : Store) (fid : String) : Store :=
  { s with fsFiles := s.fsFiles.eraseP (fun f => f.id == fid) }

/-- `fs_chunks.delete_many({"files_id": fid})`: remove every chunk of the
blob. -/
def delFsChunks (s : Store) (fid : String) : Store :=
  { s with fsChunks := s.fsChunks.filter (fun c => c.filesId != fid) }

/-- `tasks_collection.delete_one({"_id": tid})`. -/
def delTask (s : Store) (tid : String) : Store :=
  { s with tasks := s.tasks.eraseP (fun t => t.id == tid) }

/-- Effect of one iteration of the deletion loop on the store: blob
metadata, then chunks, then the task record (the first two only when the
task carries a `result_file_id`). -/
def afterTask (s : Store) (t : Task) : Store :=
  match t.resultFileId with
  | some fid => delTask (delFsChunks (delFsFile s fid) fid) t.id
  | none => delTask s t.id

/-- The intermediate stores passed through during one iteration of the
deletion loop, one entry per MongoDB write, in program order. -/
def taskStates (s : Store) (t : Task) : List Store :=
  match t.resultFileId with
  | some fid =>
    [delFsFile s fid,
     delFsChunks (delFsFile s fid) fid,
     delTask (delFsChunks (delFsFile s fid) fid) t.id]
  | none => [delTask s t.id]

/-- Every intermediate store of the whole deletion loop, in program
order. -/
def batchStates : Store → List Task → List Store
  | _, [] => []
  | s, t :: rest => taskStates s t ++ batchStates (afterTask s t) rest

/-- The deletion loop itself: fold the per-task effect over the resolved
tasks while incrementing `deleted_count` once per task. -/
def runBatch (s : Store) (ts : List Task) : Store × Nat :=
  List.foldl (fun acc t => (afterTask acc.1 t, acc.2 + 1)) (s, 0) ts

/-- `tasks_collection.find({"_id": {"$in": object_ids}})` evaluated on the
store the loop starts from. -/
def resolvedTasks (s : Store) (oids : List String) : List Task :=
  s.tasks.filter (fun t => oids.contains t.id)

/-- Existence of a task record with the given id. -/
def containsTask (s : Store) (tid : String) : Bool :=
  s.tasks.any (fun t => t.id == tid)

/-- Existence of a blob metadata record with the given id. -/
def containsBlob (s : Store) (fid : String) : Bool :=
  s.fsFiles.any (fun f => f.id == fid)

/-- Existence of a chunk record referencing the given blob id. -/
def containsChunks (s : Store) (fid : String) : Bool :=
  s.fsChunks.any (fun c => c.filesId == fid)

/-- Response of `admin_batch_delete`: HTTP 400 on an empty id list,
HTTP 500 when an id is not a well-formed ObjectId (the list comprehension
raises before any write), HTTP 200 with `deleted_count` otherwise. -/
inductive BatchResponse where
  | invalidArg (msg : String)
  | serverError (msg : String)
  | success (deletedCount : Nat)
deriving DecidableEq

/-- Handler of `POST /admin/api/batch-delete` on the body
`{"task_ids": taskIds}`: validate, convert every id, resolve, then run the
deletion loop. -/
def admin_batch_delete (s : Store) (taskIds : List String) : Store × BatchResponse :=
  if taskIds.isEmpty then (s, .invalidArg "未提供任務 ID")
  else if taskIds.all objectIdValid then
    let oids := taskIds.map normalizeOid
    let r := runBatch s (resolvedTasks s oids)
    (r.1, .success r.2)
  else (s, .serverError "InvalidId")

/-! ### GET /admin/api/system-health -/

/-- The storage-usage fields read from the compressor's JSON body;
`none` models an absent key, mapped to its documented default. -/
structure StorageBody where
  usedSpaceMb : Option ℚ
  totalSpaceMb : Option ℚ
  availableMb : Option ℚ
  usagePercent : Option ℚ
  fileCount : Option Nat
  warningLevel : Option String
deriving DecidableEq

/-- Outcome of one `requests.get` call: an HTTP response with a status
code and (parsed) body, a `requests.exceptions.Timeout`, or any other
transport exception with its message. -/
inductive HttpOutcome where
  | response (statusCode : Nat) (body : StorageBody)
  | timeout
  | connError (msg : String)
deriving DecidableEq

/-- Environment of one service probe: the call's outcome and the elapsed
wall-clock seconds measured around it. -/
structure ServiceEnv where
  outcome : HttpOutcome
  elapsedSeconds : ℚ
deriving DecidableEq

/-- Raw values the database probe reads when it succeeds: the task and
holiday counts and the `dbStats` results. -/
structure DbRaw where
  totalTasks : Nat
  processingTasks : Nat
  waitingTasks : Nat
  completedToday : Nat
  holidaysCount : Nat
  dataSize : ℚ
  collections : Nat
deriving DecidableEq

/-- Environment of the database probe: the reads succeed with the given
raw values, some MongoDB call raises with the given message, or the client
was never initialised. -/
inductive DbEnv where
  | ok (raw : DbRaw)
  | exn (msg : String)
  | clientNone
deriving DecidableEq

/-- The detailed statistics of a healthy `database` report section. -/
structure DbStats where
  totalTasks : Nat
  processingTasks : Nat
  waitingTasks : Nat
  completedToday : Nat
  holidaysCount : Nat
  dbSizeMb : ℚ
  collectionsCount : Nat
deriving DecidableEq

/-- The `database` section of the health report. -/
structure DbSection where
  status : String
  message : String
  stats : Option DbStats
deriving DecidableEq

/-- One entry of the `services` section; `responseTimeMs = none` models an
entry built without a `response_time_ms` key. -/
structure ServiceEntry where
  status : String
  message : String
  responseTimeMs : Option ℚ
  url : String
deriving DecidableEq

/-- The `storage` section filled from the compressor body on a 200
response. -/
structure StorageSection where
  usedMb : ℚ
  totalMb : ℚ
  availableMb : ℚ
  usagePercent : ℚ
  fileCount : Nat
  warningLevel : String
deriving DecidableEq

/-- `round((time.time() - start_time) * 1000, 2)`. -/
def roundMs (elapsedSeconds : ℚ) : ℚ := round2 (elapsedSeconds * 1000)

/-- The `database` probe: ping plus statistics inside one `try`; any
exception is recorded as an unhealthy section, never rethrown. -/
def dbProbe (env : DbEnv) : DbSection :=
  match env with
  | .ok raw =>
    ⟨"healthy", "連線正常",
     some ⟨raw.totalTasks, raw.processingTasks, raw.waitingTasks,
           raw.completedToday, raw.holidaysCount,
           round2 (raw.dataSize / (1024 * 1024)), raw.collections⟩⟩
  | .clientNone => ⟨"unhealthy", "MongoDB client 未初始化", none⟩
  | .exn msg => ⟨"unhealthy", msg, none⟩

/-- The compressor probe (`GET COMPRESSOR_URL/storage-stats`, 5 s timeout):
classify the outcome and, on a 200 response, also build the storage
section from the body with per-field defaults. -/
def probeCompressor (url : String) (env : ServiceEnv) :
    ServiceEntry × Option StorageSection :=
  match env.outcome with
  | .response code body =>
    if code == 200 then
      (⟨"healthy", "服務正常", some (roundMs env.elapsedSeconds), url⟩,
       some ⟨body.usedSpaceMb.getD 0, body.totalSpaceMb.getD 512,
             body.availableMb.getD 0, body.usagePercent.getD 0,
             body.fileCount.getD 0, body.warningLevel.getD "normal"⟩)
    else
      (⟨"unhealthy", "HTTP " ++ toString code, some (roundMs env.elapsedSeconds), url⟩,
       none)
  | .timeout => (⟨"unhealthy", "連線超時", none, url⟩, none)
  | .connError msg => (⟨"unhealthy", msg, none, url⟩, none)

/-- The schedule probe (`GET SCHEDULE_URL`, 5 s timeout): classification
only, no body parsing. -/
def probeSchedule (url : String) (env : ServiceEnv) : ServiceEntry :=
  match env.outcome with
  | .response code _ =>
    if code == 200 then ⟨"healthy", "服務正常", some (roundMs env.elapsedSeconds), url⟩
    else ⟨"unhealthy", "HTTP " ++ toString code, some (roundMs env.elapsedSeconds), url⟩
  | .timeout => ⟨"unhealthy", "連線超時", none, url⟩
  | .connError msg => ⟨"unhealthy", msg, none, url⟩

/-- Environment of one `get_system_health` request: the three probe
outcomes and the two configured base URLs. -/
structure HealthEnv where
  dbEnv : DbEnv
  compressorEnv : ServiceEnv
  scheduleEnv : ServiceEnv
  compressorUrl : String
  scheduleUrl : String

/-- The composed health report (the request timestamp is omitted). -/
structure HealthReport where
  database : DbSection
  compressor : ServiceEntry
  schedule : ServiceEntry
  storage : Option StorageSection
  overallStatus : String
deriving DecidableEq

/-- Handler of `GET /admin/api/system-health`: run the three probes,
compute `overall_status`, and always answer HTTP 200. -/
def get_system_health (env : HealthEnv) : HealthReport × Nat :=
  let database := dbProbe env.dbEnv
  let comp := probeCompressor env.compressorUrl env.compressorEnv
  let sched := probeSchedule env.scheduleUrl env.scheduleEnv
  let allHealthy :=
    database.status == "healthy" && comp.1.status == "healthy" && sched.status == "healthy"
  ({ database := database
     compressor := comp.1
     schedule := sched
     storage := comp.2
     overallStatus := if allHealthy then "healthy" else "degraded" }, 200)

/-! ### Concrete stores and environments used by witnesses and
counterexamples -/

/-- A completed compress task owning blob `f1`. -/
def taskA : Task :=
  ⟨"aaaaaaaaaaaaaaaaaaaaaaaa", "compress", "完成", 5,
   some "out1.zip", some "in1.txt", some "f1", some "1.2.3.4"⟩

/-- A completed compress task owning blob `f2`. -/
def taskB : Task :=
  ⟨"bbbbbbbbbbbbbbbbbbbbbbbb", "compress", "完成", 3, some "out2.zip", none, some "f2", none⟩

/-- A completed compress task whose blob reference dangles. -/
def taskC : Task :=
  ⟨"cccccccccccccccccccccccc", "compress", "完成", 9, none, none, some "f3", none⟩

/-- A completed compress task without a `result_file_id`. -/
def taskD : Task :=
  ⟨"dddddddddddddddddddddddd", "compress", "完成", 7, none, none, none, none⟩

/-- A failed compress task. -/
def taskE : Task :=
  ⟨"eeeeeeeeeeeeeeeeeeeeeeee", "compress", "失敗", 2, none, none, none, none⟩

/-- A small concrete task-ledger store. -/
def storeW : Store :=
  ⟨[taskA, taskB, taskC, taskD, taskE], [⟨"f1", 100⟩, ⟨"f2", 200⟩], [⟨"f1", 0⟩], []⟩

/-- A compressor response body with every storage field absent. -/
def bodyEmpty : StorageBody := ⟨none, none, none, none, none, none⟩

/-- Health environment in which the database probe raises. -/
def envW4 : HealthEnv :=
  ⟨DbEnv.exn "連線失敗", ⟨HttpOutcome.response 200 bodyEmpty, 1/10⟩,
   ⟨HttpOutcome.timeout, 0⟩, "http://localhost:5000", "http://localhost:3000"⟩

/-- Service-probe environment for a non-timeout transport error. -/
def envCex5 : ServiceEnv := ⟨HttpOutcome.connError "Connection refused", 7/1000⟩

/-- Service-probe environment for a non-200 HTTP response. -/
def envW5 : ServiceEnv := ⟨HttpOutcome.response 503 bodyEmpty, 2⟩

/-- A concrete holiday store with one record. -/
def storeH : Store := ⟨[], [], [], [⟨"20240101", [("name", "元旦")]⟩]⟩

/-! ## Theorems -/

/-- Round of zero is zero, so `successRate` is `0` when `total = 0`. -/
theorem round2_zero : round2 0 = 0 := by
  simp [round2]

/-- C3: `overall_status` is `healthy` iff the database section and both
service entries are `healthy`; in every other case it is `degraded`, and
no other overall value is produced. -/
theorem overall_status_iff (env : HealthEnv) :
    ((get_system_health env).1.overallStatus = "healthy" ↔
      ((get_system_health env).1.database.status = "healthy" ∧
       (get_system_health env).1.compressor.status = "healthy" ∧
       (get_system_health env).1.schedule.status = "healthy"))
    ∧ ((get_system_health env).1.overallStatus = "healthy" ∨
       (get_system_health env).1.overallStatus = "degraded") := by
  have hov : (get_system_health env).1.overallStatus
      = if (dbProbe env.dbEnv).status == "healthy"
          && ((probeCompressor env.compressorUrl env.compressorEnv).1.status == "healthy")
          && ((probeSchedule env.scheduleUrl env.scheduleEnv).status == "healthy")
        then "healthy" else "degraded" := rfl
  have hdb : (get_system_health env).1.database = dbProbe env.dbEnv := rfl
  have hc : (get_system_health env).1.compressor
      = (probeCompressor env.compressorUrl env.compressorEnv).1 := rfl
  have hs : (get_system_health env).1.schedule
      = probeSchedule env.scheduleUrl env.scheduleEnv := rfl
  rw [hov, hdb, hc, hs]
  by_cases h1 : (dbProbe env.dbEnv).status = "healthy" <;>
    by_cases h2 : (probeCompressor env.compressorUrl env.compressorEnv).1.status = "healthy" <;>
      by_cases h3 : (probeSchedule env.scheduleUrl env.scheduleEnv).status = "healthy" <;>
        simp [h1, h2, h3]

/-- C4: an exception inside the database probe is caught and recorded as
`database.status = "unhealthy"` with the exception message; both service
probes still run on their own environments and fill their sections, and
the endpoint still answers HTTP 200. -/
theorem health_db_failure_isolated (env : HealthEnv) (msg : String)
    (h : env.dbEnv = DbEnv.exn msg) :
    (get_system_health env).2 = 200
    ∧ (get_system_health env).1.database.status = "unhealthy"
    ∧ (get_system_health env).1.database.message = msg
    ∧ (get_system_health env).1.compressor
        = (probeCompressor env.compressorUrl env.compressorEnv).1
    ∧ (get_system_health env).1.storage
        = (probeCompressor env.compressorUrl env.compressorEnv).2
    ∧ (get_system_health env).1.schedule
        = probeSchedule env.scheduleUrl env.scheduleEnv := by
  refine ⟨rfl, ?_, ?_, rfl, rfl, rfl⟩
  · show (dbProbe env.dbEnv).status = "unhealthy"
    rw [h]
    rfl
  · show (dbProbe env.dbEnv).message = msg
    rw [h]
    rfl

/-- Witness for C4 at a concrete environment whose database probe raises
with message `連線失敗`. -/
theorem health_db_failure_isolated_witness :
    (get_system_health envW4).2 = 200
    ∧ (get_system_health envW4).1.database.status = "unhealthy"
    ∧ (get_system_health envW4).1.database.message = "連線失敗"
    ∧ (get_system_health envW4).1.compressor
        = (probeCompressor envW4.compressorUrl envW4.compressorEnv).1
    ∧ (get_system_health envW4).1.storage
        = (probeCompressor envW4.compressorUrl envW4.compressorEnv).2
    ∧ (get_system_health envW4).1.schedule
        = probeSchedule envW4.scheduleUrl envW4.scheduleEnv :=
  health_db_failure_isolated envW4 "連線失敗" rfl

/-- C5, counterexample: a transport error other than a timeout (here a
refused connection) also produces an entry without a latency field, so the
latency is not recorded "regardless of outcome, except timeout". -/
theorem probe_latency_counterexample :
    envCex5.outcome ≠ HttpOutcome.timeout
    ∧ (probeSchedule "http://localhost:3000" envCex5).status = "unhealthy"
    ∧ (probeSchedule "http://localhost:3000" envCex5).responseTimeMs = none
    ∧ (probeCompressor "http://localhost:5000" envCex5).1.responseTimeMs = none :=
  ⟨by decide, rfl, rfl, rfl⟩

/-- C5, amended: an HTTP response (200 or any other status code) yields an
entry recording the rounded wall-clock latency, classified `healthy` for
200 and `unhealthy` with message `HTTP <code>` otherwise; a timeout and
any other transport error both yield an `unhealthy` entry with no latency
field, carrying the timeout message resp. the error message. -/
theorem probe_classification (url : String) (env : ServiceEnv) :
    (∀ code body, env.outcome = HttpOutcome.response code body →
      (probeSchedule url env).responseTimeMs = some (roundMs env.elapsedSeconds)
      ∧ (probeCompressor url env).1.responseTimeMs = some (roundMs env.elapsedSeconds)
      ∧ (code = 200 →
          (probeSchedule url env).status = "healthy"
          ∧ (probeCompressor url env).1.status = "healthy")
      ∧ (code ≠ 200 →
          (probeSchedule url env).status = "unhealthy"
          ∧ (probeSchedule url env).message = "HTTP " ++ toString code
          ∧ (probeCompressor url env).1.status = "unhealthy"
          ∧ (probeCompressor url env).1.message = "HTTP " ++ toString code))
    ∧ (env.outcome = HttpOutcome.timeout →
        (probeSchedule url env).status = "unhealthy"
        ∧ (probeSchedule url env).message = "連線超時"
        ∧ (probeSchedule url env).responseTimeMs = none
        ∧ (probeCompressor url env).1.status = "unhealthy"
        ∧ (probeCompressor url env).1.message = "連線超時"
        ∧ (probeCompressor url env).1.responseTimeMs = none)
    ∧ (∀ msg, env.outcome = HttpOutcome.connError msg →
        (probeSchedule url env).status = "unhealthy"
        ∧ (probeSchedule url env).message = msg
        ∧ (probeSchedule url env).responseTimeMs = none
        ∧ (probeCompressor url env).1.status = "unhealthy"
        ∧ (probeCompressor url env).1.message = msg
        ∧ (probeCompressor url env).1.responseTimeMs = none) := by
  obtain ⟨o, e⟩ := env
  refine ⟨?_, ?_, ?_⟩
  · rintro code body rfl
    by_cases h200 : code = 200
    · subst h200
      simp [probeSchedule, probeCompressor]
    · have hb : (code == 200) = false := by simpa using h200
      simp [probeSchedule, probeCompressor, hb, h200]
  · rintro rfl
    simp [probeSchedule, probeCompressor]
  · rintro msg rfl
    simp [probeSchedule, probeCompressor]

/-- Witness for C5 at a concrete non-200 response environment. -/
theorem probe_classification_witness :
    (probeSchedule "http://localhost:3000" envW5).responseTimeMs
        = some (roundMs envW5.elapsedSeconds)
    ∧ (probeSchedule "http://localhost:3000" envW5).status = "unhealthy"
    ∧ (probeSchedule "http://localhost:3000" envW5).message = "HTTP 503" := by
  have h := (probe_classification "http://localhost:3000" envW5).1 503 bodyEmpty rfl
  exact ⟨h.1, (h.2.2.2 (by decide)).1, (h.2.2.2 (by decide)).2.1⟩

/-- C7: the statistics endpoint computes
`successRate = round(completed/total*100, 2)` for `total > 0` and `0` for
`total = 0` (no division error), `storageBytes` as the sum of the `length`
field over all `fs.files` records (0 when there are none), and
`storageMB = round(storageBytes/(1024*1024), 2)`. -/
theorem compression_stats_correct (s : Store) :
    (get_compression_stats s).totalTasks = s.tasks.length
    ∧ (get_compression_stats s).completedTasks
        = (s.tasks.filter (fun t => t.status == "完成")).length
    ∧ (get_compression_stats s).failedTasks
        = (s.tasks.filter (fun t => t.status == "失敗")).length
    ∧ (0 < s.tasks.length →
        (get_compression_stats s).successRate
          = round2 (((s.tasks.filter (fun t => t.status == "完成")).length : ℚ)
              / (s.tasks.length : ℚ) * 100))
    ∧ (s.tasks.length = 0 → (get_compression_stats s).successRate = 0)
    ∧ (get_compression_stats s).storageUsedBytes = (s.fsFiles.map (fun f => f.length)).sum
    ∧ (get_compression_stats s).storageUsedMb
        = round2 ((((s.fsFiles.map (fun f => f.length)).sum : ℕ) : ℚ) / (1024 * 1024)) := by
  obtain ⟨ts, fs, cs, hs⟩ := s
  refine ⟨rfl, rfl, rfl, ?_, ?_, ?_, ?_⟩
  · intro hpos
    show round2 (if 0 < ts.length then _ else 0) = _
    rw [if_pos hpos]
  · intro h0
    replace h0 : ts.length = 0 := h0
    show round2 (if 0 < ts.length then _ else 0) = 0
    rw [if_neg (by omega), round2_zero]
  · cases fs <;> rfl
  · cases fs <;> rfl

/-- Witness for C7: the concrete store has five tasks (so the nonzero
branch of the success rate applies) and blobs of 100 and 200 bytes. -/
theorem compression_stats_correct_witness :
    0 < storeW.tasks.length
    ∧ (get_compression_stats storeW).successRate
        = round2 (((storeW.tasks.filter (fun t => t.status == "完成")).length : ℚ)
            / (storeW.tasks.length : ℚ) * 100)
    ∧ (get_compression_stats storeW).storageUsedBytes = 300 := by
  refine ⟨by decide, (compression_stats_correct storeW).2.2.2.1 (by decide), ?_⟩
  have h := (compression_stats_correct storeW).2.2.2.2.2.1
  rw [h]
  decide

/-- C8: for a 4-digit year and a 1-or-2-digit month, the holiday query
keys on the exact 6-character prefix `year ++ zfill(month, 2)`: the result
is precisely the records whose identifier starts with that prefix (partial
prefix matches are excluded), and an absent parameter yields the
invalid-argument error. -/
theorem get_holidays_prefix (s : Store) (y m : String)
    (hy : y.length = 4) (hm1 : 1 ≤ m.length) (hm2 : m.length ≤ 2)
    (_hyd : y.data.all Char.isDigit = true) (_hmd : m.data.all Char.isDigit = true) :
    (y ++ zfill2 m).length = 6
    ∧ get_holidays s (some y) (some m)
        = HolidaysResponse.ok
            (s.holidays.filter (fun h => (y ++ zfill2 m).isPrefixOf h.id))
    ∧ (∀ h ∈ holidayRecords (get_holidays s (some y) (some m)),
        (y ++ zfill2 m).isPrefixOf h.id = true)
    ∧ (∀ h ∈ s.holidays, (y ++ zfill2 m).isPrefixOf h.id = false →
        h ∉ holidayRecords (get_holidays s (some y) (some m)))
    ∧ get_holidays s none (some m) = HolidaysResponse.invalidArg "缺少年份或月份參數"
    ∧ get_holidays s (some y) none = HolidaysResponse.invalidArg "缺少年份或月份參數"
    ∧ get_holidays s none none = HolidaysResponse.invalidArg "缺少年份或月份參數" := by
  have hyne : (y == "") = false := by
    rw [beq_eq_false_iff_ne]
    intro hcontra
    rw [hcontra] at hy
    exact absurd hy (by decide)
  have hmne : (m == "") = false := by
    rw [beq_eq_false_iff_ne]
    intro hcontra
    rw [hcontra] at hm1
    exact absurd hm1 (by decide)
  have hmain : get_holidays s (some y) (some m)
      = HolidaysResponse.ok
          (s.holidays.filter (fun h => (y ++ zfill2 m).isPrefixOf h.id)) := by
    simp [get_holidays, hyne, hmne]
  refine ⟨?_, hmain, ?_, ?_, rfl, rfl, rfl⟩
  · have hz : (zfill2 m).length = 2 := by
      unfold zfill2
      by_cases h2 : 2 ≤ m.length
      · rw [if_pos h2]
        omega
      · rw [if_neg h2, String.length_append]
        have hrep : (String.mk (List.replicate (2 - m.length) '0')).length
            = 2 - m.length := by
          show (List.replicate (2 - m.length) '0').length = 2 - m.length
          exact List.length_replicate _ _
        omega
    rw [String.length_append, hy, hz]
  · intro h hmem
    rw [hmain] at hmem
    simp only [holidayRecords, List.mem_filter] at hmem
    exact hmem.2
  · intro h _ hpref hmem
    rw [hmain] at hmem
    simp only [holidayRecords, List.mem_filter] at hmem
    rw [hmem.2] at hpref
    exact absurd hpref (by decide)

/-- Witness for C8 at year 2024, month 5, on a store holding a matching
and a non-matching record. -/
theorem get_holidays_prefix_witness :
    ("2024" ++ zfill2 "5").length = 6
    ∧ get_holidays storeH (some "2024") (some "5")
        = HolidaysResponse.ok
            (storeH.holidays.filter (fun h => ("2024" ++ zfill2 "5").isPrefixOf h.id))
    ∧ get_holidays storeH none (some "5")
        = HolidaysResponse.invalidArg "缺少年份或月份參數" := by
  have h := get_holidays_prefix storeH "2024" "5" (by decide) (by decide) (by decide)
    (by decide) (by decide)
  exact ⟨h.1, h.2.1, h.2.2.2.2.1⟩

/-- C10: a malformed ObjectId string anywhere in `task_ids` makes the
whole request fail before any write: the store is unchanged and the
response is never a success. -/
theorem batch_delete_malformed_atomic (s : Store) (taskIds : List String) (tid : String)
    (hmem : tid ∈ taskIds) (hbad : objectIdValid tid = false) :
    (admin_batch_delete s taskIds).1 = s
    ∧ ∀ n, (admin_batch_delete s taskIds).2 ≠ BatchResponse.success n := by
  have hne : taskIds.isEmpty = false := by
    cases taskIds
    · exact absurd hmem (by simp)
    · rfl
  have hall : taskIds.all objectIdValid = false := by
    cases hcase : taskIds.all objectIdValid
    · rfl
    · exact absurd (List.all_eq_true.mp hcase tid hmem) (by simp [hbad])
  simp [admin_batch_delete, hne, hall]

/-- Witness for C10: the single id `"zz"` is not 24 hex characters, so the
request leaves the concrete store untouched and fails. -/
theorem batch_delete_malformed_atomic_witness :
    (admin_batch_delete storeW ["zz"]).1 = storeW
    ∧ (admin_batch_delete storeW ["zz"]).2 ≠ BatchResponse.success 1 := by
  have h := batch_delete_malformed_atomic storeW ["zz"] "zz" (by decide) (by decide)
  exact ⟨h.1, h.2 1⟩

/-- With pairwise-distinct keys, erasing the key-matching element leaves
no element with that key. -/
theorem eraseP_key_all_neq {α : Type} (key : α → String) (k : String) :
    ∀ l : List α, (l.map key).Nodup →
      ∀ x ∈ l.eraseP (fun a => key a == k), (key x == k) = false := by
  intro l
  induction l with
  | nil => intro _ x hx; simp at hx
  | cons a l ih =>
    intro hn x hx
    rw [List.map_cons] at hn
    obtain ⟨ha, hl⟩ := List.nodup_cons.mp hn
    by_cases hpa : (key a == k) = true
    · rw [List.eraseP_cons_of_pos (p := fun y => key y == k) hpa] at hx
      by_contra hcon
      rw [Bool.not_eq_false] at hcon
      have hxk : key x = k := by simpa using hcon
      have hak : key a = k := by simpa using hpa
      exact ha (by rw [hak, ← hxk]; exact List.mem_map_of_mem key hx)
    · rw [List.eraseP_cons_of_neg (p := fun y => key y == k) (by simpa using hpa)] at hx
      rcases List.mem_cons.mp hx with rfl | hx
      · simpa using hpa
      · exact ih hl x hx

/-- An `any` that is false on a list is false on each of its sublists. -/
theorem any_eq_false_of_sublist {α : Type} (p : α → Bool) {l1 l2 : List α}
    (hs : l1.Sublist l2) (h : l2.any p = false) : l1.any p = false := by
  rw [List.any_eq_false] at h ⊢
  exact fun x hx => h x (hs.subset hx)

/-- One loop iteration touches the task collection only through the final
`delete_one` on the task's own id. -/
theorem afterTask_tasks (s : Store) (t : Task) :
    (afterTask s t).tasks = s.tasks.eraseP (fun u => u.id == t.id) := by
  cases h : t.resultFileId <;> simp [afterTask, h, delTask, delFsChunks, delFsFile]

/-- For a task with a blob, the iteration erases the blob's metadata
record. -/
theorem afterTask_fsFiles_some (s : Store) (t : Task) (fid : String)
    (h : t.resultFileId = some fid) :
    (afterTask s t).fsFiles = s.fsFiles.eraseP (fun f => f.id == fid) := by
  simp [afterTask, h, delTask, delFsChunks, delFsFile]

/-- For a task with a blob, the iteration removes every chunk of the
blob. -/
theorem afterTask_fsChunks_some (s : Store) (t : Task) (fid : String)
    (h : t.resultFileId = some fid) :
    (afterTask s t).fsChunks = s.fsChunks.filter (fun c => c.filesId != fid) := by
  simp [afterTask, h, delTask, delFsChunks, delFsFile]

/-- One loop iteration only ever removes blob metadata records. -/
theorem afterTask_fsFiles_sublist (s : Store) (t : Task) :
    (afterTask s t).fsFiles.Sublist s.fsFiles := by
  cases h : t.resultFileId
  · simp [afterTask, h, delTask]
  · rw [afterTask_fsFiles_some s t _ h]
    exact List.eraseP_sublist _

/-- One loop iteration only ever removes chunk records. -/
theorem afterTask_fsChunks_sublist (s : Store) (t : Task) :
    (afterTask s t).fsChunks.Sublist s.fsChunks := by
  cases h : t.resultFileId
  · simp [afterTask, h, delTask]
  · rw [afterTask_fsChunks_some s t _ h]
    exact List.filter_sublist _

/-- Within one iteration, the task collection is either untouched or has
exactly the iteration's task erased. -/
theorem taskStates_tasks (s : Store) (t : Task) :
    ∀ σ ∈ taskStates s t,
      σ.tasks = s.tasks ∨ σ.tasks = s.tasks.eraseP (fun u => u.id == t.id) := by
  intro σ hσ
  cases h : t.resultFileId <;> simp [taskStates, h] at hσ
  · rw [hσ]
    exact Or.inr rfl
  · rcases hσ with rfl | rfl | rfl
    · exact Or.inl rfl
    · exact Or.inl rfl
    · exact Or.inr rfl

/-- Within one iteration, blob metadata records are only removed. -/
theorem taskStates_fsFiles_sublist (s : Store) (t : Task) :
    ∀ σ ∈ taskStates s t, σ.fsFiles.Sublist s.fsFiles := by
  intro σ hσ
  cases h : t.resultFileId <;> simp [taskStates, h] at hσ
  · rw [hσ]
    exact List.Sublist.refl _
  · rcases hσ with rfl | rfl | rfl <;>
      exact List.eraseP_sublist _

/-- Within one iteration, chunk records are only removed. -/
theorem taskStates_fsChunks_sublist (s : Store) (t : Task) :
    ∀ σ ∈ taskStates s t, σ.fsChunks.Sublist s.fsChunks := by
  intro σ hσ
  cases h : t.resultFileId <;> simp [taskStates, h] at hσ
  · rw [hσ]
    exact List.Sublist.refl _
  · rcases hσ with rfl | rfl | rfl
    · exact List.Sublist.refl _
    · exact List.filter_sublist _
    · exact List.filter_sublist _

/-- Across the whole loop, blob metadata records are only removed. -/
theorem batchStates_fsFiles_sublist :
    ∀ (todo : List Task) (s : Store), ∀ σ ∈ batchStates s todo,
      σ.fsFiles.Sublist s.fsFiles := by
  intro todo
  induction todo with
  | nil => intro s σ hσ; simp [batchStates] at hσ
  | cons t rest ih =>
    intro s σ hσ
    simp only [batchStates, List.mem_append] at hσ
    rcases hσ with h | h
    · exact taskStates_fsFiles_sublist s t σ h
    · exact (ih (afterTask s t) σ h).trans (afterTask_fsFiles_sublist s t)

/-- Across the whole loop, chunk records are only removed. -/
theorem batchStates_fsChunks_sublist :
    ∀ (todo : List Task) (s : Store), ∀ σ ∈ batchStates s todo,
      σ.fsChunks.Sublist s.fsChunks := by
  intro todo
  induction todo with
  | nil => intro s σ hσ; simp [batchStates] at hσ
  | cons t rest ih =>
    intro s σ hσ
    simp only [batchStates, List.mem_append] at hσ
    rcases hσ with h | h
    · exact taskStates_fsChunks_sublist s t σ h
    · exact (ih (afterTask s t) σ h).trans (afterTask_fsChunks_sublist s t)

/-- Loop invariant for the batch deletion: at every intermediate store, a
to-be-deleted task whose record is already gone has its referenced blob
(metadata and chunks) gone as well. -/
theorem batch_inv_blob (todo : List Task) :
    ∀ s : Store, (s.tasks.map (fun v => v.id)).Nodup →
      (s.fsFiles.map (fun f => f.id)).Nodup →
      (todo.map (fun v => v.id)).Nodup →
      (∀ u ∈ todo, u ∈ s.tasks) →
      ∀ σ ∈ batchStates s todo, ∀ t ∈ todo, ∀ fid, t.resultFileId = some fid →
        containsTask σ t.id = false →
        containsBlob σ fid = false ∧ containsChunks σ fid = false := by
  induction todo with
  | nil => intro s _ _ _ _ σ hσ; simp [batchStates] at hσ
  | cons t rest ih =>
    intro s hT hF hTodo hpres σ hσ u hu fid hfid habs
    rw [List.map_cons] at hTodo
    obtain ⟨hth, htr⟩ := List.nodup_cons.mp hTodo
    simp only [batchStates, List.mem_append] at hσ
    have htmem : t ∈ s.tasks := hpres t (List.mem_cons_self t rest)
    have hblobgone : ∀ X : Store,
        X.fsFiles = s.fsFiles.eraseP (fun f => f.id == fid) →
        containsBlob X fid = false := by
      intro X hX
      rw [containsBlob, hX, List.any_eq_false]
      intro f hf
      simp [eraseP_key_all_neq (fun f => f.id) fid s.fsFiles hF f hf]
    rcases hσ with hσ | hσ
    · rcases List.mem_cons.mp hu with rfl | hu
      · simp only [taskStates, hfid] at hσ
        have hct : ∀ X : Store, X.tasks = s.tasks → containsTask X u.id = true := by
          intro X hX
          rw [containsTask, hX, List.any_eq_true]
          exact ⟨u, htmem, by simp⟩
        simp only [List.mem_cons, List.not_mem_nil, or_false] at hσ
        rcases hσ with rfl | rfl | rfl
        · rw [hct (delFsFile s fid) rfl] at habs
          exact absurd habs (by decide)
        · rw [hct (delFsChunks (delFsFile s fid) fid) rfl] at habs
          exact absurd habs (by decide)
        · refine ⟨hblobgone _ rfl, ?_⟩
          rw [containsChunks, List.any_eq_false]
          intro c hc
          have hcf := (List.mem_filter.mp hc).2
          simp only [bne_iff_ne, ne_eq, decide_eq_true_eq] at hcf
          simp [hcf]
      · have hne2 : u.id ≠ t.id := fun he => hth (he ▸ List.mem_map_of_mem (fun v => v.id) hu)
        have humem : u ∈ s.tasks := hpres u (List.mem_cons_of_mem t hu)
        have hpresent : containsTask σ u.id = true := by
          rcases taskStates_tasks s t σ hσ with hX | hX
          · rw [containsTask, hX, List.any_eq_true]
            exact ⟨u, humem, by simp⟩
          · rw [containsTask, hX, List.any_eq_true]
            exact ⟨u, (List.mem_eraseP_of_neg (by simp [hne2])).mpr humem, by simp⟩
        exact absurd hpresent (by simp [habs])
    · have hsubT : (afterTask s t).tasks.Sublist s.tasks := by
        rw [afterTask_tasks]
        exact List.eraseP_sublist _
      have hT2 : ((afterTask s t).tasks.map (fun v => v.id)).Nodup :=
        hT.sublist (hsubT.map _)
      have hF2 : ((afterTask s t).fsFiles.map (fun f => f.id)).Nodup :=
        hF.sublist ((afterTask_fsFiles_sublist s t).map _)
      have hpres2 : ∀ v ∈ rest, v ∈ (afterTask s t).tasks := by
        intro v hv
        have hvne : v.id ≠ t.id := fun he => hth (he ▸ List.mem_map_of_mem (fun w => w.id) hv)
        rw [afterTask_tasks]
        exact (List.mem_eraseP_of_neg (by simp [hvne])).mpr
          (hpres v (List.mem_cons_of_mem t hv))
      rcases List.mem_cons.mp hu with rfl | hu
      · have hb : containsBlob (afterTask s u) fid = false :=
          hblobgone _ (afterTask_fsFiles_some s u fid hfid)
        have hc : containsChunks (afterTask s u) fid = false := by
          rw [containsChunks, afterTask_fsChunks_some s u fid hfid, List.any_eq_false]
          intro c hc
          have hcf := (List.mem_filter.mp hc).2
          simp only [bne_iff_ne, ne_eq, decide_eq_true_eq] at hcf
          simp [hcf]
        exact ⟨any_eq_false_of_sublist _ (batchStates_fsFiles_sublist rest _ σ hσ) hb,
               any_eq_false_of_sublist _ (batchStates_fsChunks_sublist rest _ σ hσ) hc⟩
      · exact ih (afterTask s t) hT2 hF2 htr hpres2 σ hσ u hu fid hfid habs

/-- The loop counter of `runBatch` counts exactly one increment per
task, independently of the store effects. -/
theorem runBatch_count_aux (ts : List Task) :
    ∀ (s : Store) (n : Nat),
      (List.foldl (fun acc t => (afterTask acc.1 t, acc.2 + 1)) (s, n) ts).2
        = n + ts.length := by
  induction ts with
  | nil => intro s n; simp
  | cons t ts ih =>
    intro s n
    rw [List.foldl_cons, ih]
    simp
    omega

/-- C2: during the batch deletion, at every intermediate store, every
resolved task carrying a `result_file_id` has its blob metadata and all
its chunks deleted strictly before its own task record is deleted, and
`deleted_count` is incremented exactly once per resolved task. -/
theorem batch_delete_temporal_order (s : Store) (taskIds : List String)
    (hT : (s.tasks.map (fun v => v.id)).Nodup)
    (hF : (s.fsFiles.map (fun f => f.id)).Nodup) :
    (∀ σ ∈ batchStates s (resolvedTasks s (taskIds.map normalizeOid)),
      ∀ t ∈ resolvedTasks s (taskIds.map normalizeOid), ∀ fid,
        t.resultFileId = some fid →
        containsTask σ t.id = false →
        containsBlob σ fid = false ∧ containsChunks σ fid = false)
    ∧ (runBatch s (resolvedTasks s (taskIds.map normalizeOid))).2
        = (resolvedTasks s (taskIds.map normalizeOid)).length := by
  constructor
  · apply batch_inv_blob
    · exact hT
    · exact hF
    · exact hT.sublist ((List.filter_sublist s.tasks).map _)
    · intro u hu
      exact List.mem_of_mem_filter hu
  · rw [runBatch, runBatch_count_aux]
    omega

/-- Witness for C2 on the concrete store: after the final write of the
loop for `taskA`, the blob `f1` (metadata and chunks) is gone, and the
count equals the single resolved task. -/
theorem batch_delete_temporal_order_witness :
    containsBlob
        (delTask (delFsChunks (delFsFile storeW "f1") "f1") "aaaaaaaaaaaaaaaaaaaaaaaa")
        "f1" = false
    ∧ containsChunks
        (delTask (delFsChunks (delFsFile storeW "f1") "f1") "aaaaaaaaaaaaaaaaaaaaaaaa")
        "f1" = false
    ∧ (runBatch storeW
          (resolvedTasks storeW (["aaaaaaaaaaaaaaaaaaaaaaaa"].map normalizeOid))).2
        = (resolvedTasks storeW (["aaaaaaaaaaaaaaaaaaaaaaaa"].map normalizeOid)).length := by
  have h := batch_delete_temporal_order storeW ["aaaaaaaaaaaaaaaaaaaaaaaa"]
    (by decide) (by decide)
  have h1 := h.1
    (delTask (delFsChunks (delFsFile storeW "f1") "f1") "aaaaaaaaaaaaaaaaaaaaaaaa")
    (by decide) taskA (by decide) "f1" (by decide) (by decide)
  exact ⟨h1.1, h1.2, h.2⟩

/-- The store component of `runBatch` is the fold of the per-task
effect, independently of the running counter. -/
theorem runBatch_fst_aux (ts : List Task) :
    ∀ (s : Store) (n : Nat),
      (List.foldl (fun acc t => (afterTask acc.1 t, acc.2 + 1)) (s, n) ts).1
        = List.foldl afterTask s ts := by
  induction ts with
  | nil => intro s n; rfl
  | cons t ts ih =>
    intro s n
    rw [List.foldl_cons, List.foldl_cons]
    exact ih _ _

/-- The task collection after the whole loop: successive erasures by
id. -/
theorem foldl_afterTask_tasks (ts : List Task) :
    ∀ s : Store,
      (List.foldl afterTask s ts).tasks
        = List.foldl (fun l t => l.eraseP (fun u => u.id == t.id)) s.tasks ts := by
  induction ts with
  | nil => intro s; rfl
  | cons t ts ih =>
    intro s
    rw [List.foldl_cons, List.foldl_cons, ih, afterTask_tasks]

/-- The erasure fold only shrinks the task list. -/
theorem foldl_erase_sublist (ts : List Task) :
    ∀ l : List Task,
      (List.foldl (fun l t => l.eraseP (fun u => u.id == t.id)) l ts).Sublist l := by
  induction ts with
  | nil => intro l; exact List.Sublist.refl _
  | cons t ts ih =>
    intro l
    rw [List.foldl_cons]
    exact (ih _).trans (List.eraseP_sublist _)

/-- Once the loop has processed some task with id `i`, no task with id
`i` remains. -/
theorem foldl_erase_absent (ts : List Task) :
    ∀ l : List Task, (l.map (fun u => u.id)).Nodup →
      ∀ i : String, (∃ t ∈ ts, t.id = i) →
        ((List.foldl (fun l t => l.eraseP (fun u => u.id == t.id)) l ts).any
            (fun u => u.id == i)) = false := by
  induction ts with
  | nil =>
    intro l _ i hex
    simp at hex
  | cons t ts ih =>
    intro l hn i hex
    rw [List.foldl_cons]
    have hsub : (l.eraseP (fun u => u.id == t.id)).Sublist l := List.eraseP_sublist _
    have hn1 : ((l.eraseP (fun u => u.id == t.id)).map (fun u => u.id)).Nodup :=
      hn.sublist (hsub.map _)
    rcases hex with ⟨t0, ht0, hti⟩
    rcases List.mem_cons.mp ht0 with rfl | ht0
    · have habsent : (l.eraseP (fun u => u.id == t0.id)).any (fun u => u.id == i) = false := by
        rw [List.any_eq_false]
        intro x hx
        have hxneq := eraseP_key_all_neq (fun u => u.id) t0.id l hn x hx
        rw [hti] at hxneq
        simp [hxneq]
      exact any_eq_false_of_sublist _ (foldl_erase_sublist ts _) habsent
    · exact ih _ hn1 i ⟨t0, ht0, hti⟩

/-- A task whose id the loop never names survives every erasure. -/
theorem foldl_erase_preserve (ts : List Task) :
    ∀ (l : List Task) (u : Task), u ∈ l → (∀ t ∈ ts, u.id ≠ t.id) →
      u ∈ List.foldl (fun l t => l.eraseP (fun v => v.id == t.id)) l ts := by
  induction ts with
  | nil => intro l u hu _; exact hu
  | cons t ts ih =>
    intro l u hu hne
    rw [List.foldl_cons]
    refine ih _ u ?_ (fun t2 ht2 => hne t2 (List.mem_cons_of_mem t ht2))
    exact (List.mem_eraseP_of_neg (by simp [hne t (List.mem_cons_self t ts)])).mpr hu

/-- Filtering a duplicate-free list by membership in another list is a
set intersection. -/
theorem filter_anymem_toFinset (X Y : List String) :
    (X.filter (fun x => Y.any (fun y => x == y))).toFinset
      = X.toFinset ∩ Y.toFinset := by
  ext x
  simp [List.mem_filter, List.any_eq_true]

/-- Double counting: on duplicate-free lists, the number of elements of
`A` occurring in `B` equals the number of elements of `B` occurring in
`A`. -/
theorem length_filter_mem_comm {A B : List String} (hA : A.Nodup) (hB : B.Nodup) :
    (A.filter (fun a => B.any (fun b => a == b))).length
      = (B.filter (fun b => A.any (fun a => b == a))).length := by
  rw [← List.toFinset_card_of_nodup (hA.filter _),
      ← List.toFinset_card_of_nodup (hB.filter _),
      filter_anymem_toFinset, filter_anymem_toFinset, Finset.inter_comm]

/-- Filtering after a map counts the composed predicate. -/
theorem length_filter_map {α β : Type} (f : α → β) (p : β → Bool) (l : List α) :
    ((l.map f).filter p).length = (l.filter (fun a => p (f a))).length := by
  induction l with
  | nil => rfl
  | cons a l ih =>
    rw [List.map_cons]
    cases h : p (f a)
    · rw [List.filter_cons_of_neg (by simp [h]), List.filter_cons_of_neg (by simp [h]), ih]
    · rw [List.filter_cons_of_pos (by simp [h]), List.filter_cons_of_pos (by simp [h])]
      simp [ih]

/-- C6: batch delete on an empty id set fails with the invalid-argument
error; on a non-empty set of well-formed ids, ids that do not resolve are
silently skipped, `deleted_count` equals the number of ids that resolve to
an existing task, every resolved task record is deleted, and unrelated
task records survive. -/
theorem batch_delete_contract (s : Store) (taskIds : List String)
    (hT : (s.tasks.map (fun v => v.id)).Nodup)
    (hids : (taskIds.map normalizeOid).Nodup) :
    (taskIds = [] →
      admin_batch_delete s taskIds = (s, BatchResponse.invalidArg "未提供任務 ID"))
    ∧ (taskIds ≠ [] → taskIds.all objectIdValid = true →
        (admin_batch_delete s taskIds).2
          = BatchResponse.success
              (((taskIds.map normalizeOid).filter (fun tid => containsTask s tid)).length)
        ∧ (∀ tid ∈ taskIds,
            containsTask (admin_batch_delete s taskIds).1 (normalizeOid tid) = false)
        ∧ (∀ u ∈ s.tasks, (∀ tid ∈ taskIds, u.id ≠ normalizeOid tid) →
            u ∈ (admin_batch_delete s taskIds).1.tasks)) := by
  constructor
  · rintro rfl
    rfl
  · intro hne hval
    have hempty : taskIds.isEmpty = false := by
      cases taskIds
      · exact absurd rfl hne
      · rfl
    have hrun : admin_batch_delete s taskIds
        = ((runBatch s (resolvedTasks s (taskIds.map normalizeOid))).1,
           BatchResponse.success
             (runBatch s (resolvedTasks s (taskIds.map normalizeOid))).2) := by
      simp [admin_batch_delete, hempty, hval]
    have htasks : (admin_batch_delete s taskIds).1.tasks
        = List.foldl (fun l t => l.eraseP (fun u => u.id == t.id)) s.tasks
            (resolvedTasks s (taskIds.map normalizeOid)) := by
      rw [hrun]
      show (runBatch s _).1.tasks = _
      rw [runBatch, runBatch_fst_aux, foldl_afterTask_tasks]
    have hmemoid : ∀ t ∈ resolvedTasks s (taskIds.map normalizeOid),
        t.id ∈ taskIds.map normalizeOid := by
      intro t ht
      have hc := (List.mem_filter.mp ht).2
      rw [List.contains_eq_any_beq, List.any_eq_true] at hc
      obtain ⟨b, hb, hbe⟩ := hc
      have : t.id = b := by simpa using hbe
      rw [this]
      exact hb
    refine ⟨?_, ?_, ?_⟩
    · rw [hrun]
      show BatchResponse.success (runBatch s _).2 = _
      rw [runBatch, runBatch_count_aux, Nat.zero_add]
      congr 1
      rw [resolvedTasks]
      have h1 : s.tasks.filter (fun t => (taskIds.map normalizeOid).contains t.id)
          = s.tasks.filter
              (fun t => (taskIds.map normalizeOid).any (fun o => t.id == o)) :=
        List.filter_congr (fun t _ => List.contains_eq_any_beq _ _)
      have h2 : (s.tasks.filter
            (fun t => (taskIds.map normalizeOid).any (fun o => t.id == o))).length
          = ((s.tasks.map (fun v => v.id)).filter
              (fun i => (taskIds.map normalizeOid).any (fun o => i == o))).length :=
        (length_filter_map (fun v : Task => v.id)
          (fun i => (taskIds.map normalizeOid).any (fun o => i == o)) s.tasks).symm
      rw [h1, h2, length_filter_mem_comm hT hids]
      apply congrArg
      apply List.filter_congr
      intro o _
      rw [Bool.eq_iff_iff]
      simp only [containsTask, List.any_eq_true, List.mem_map, beq_iff_eq]
      constructor
      · rintro ⟨a, ⟨t, ht, rfl⟩, he⟩
        exact ⟨t, ht, he.symm⟩
      · rintro ⟨t, ht, he⟩
        exact ⟨t.id, ⟨t, ht, rfl⟩, he.symm⟩
    · intro tid htid
      have hioids : normalizeOid tid ∈ taskIds.map normalizeOid :=
        List.mem_map_of_mem normalizeOid htid
      cases hpres : containsTask s (normalizeOid tid)
      · have hsub : (admin_batch_delete s taskIds).1.tasks.Sublist s.tasks := by
          rw [htasks]
          exact foldl_erase_sublist _ _
        exact any_eq_false_of_sublist _ hsub hpres
      · rw [containsTask, List.any_eq_true] at hpres
        obtain ⟨u, hu, hue⟩ := hpres
        have hui : u.id = normalizeOid tid := by simpa using hue
        have hures : u ∈ resolvedTasks s (taskIds.map normalizeOid) := by
          rw [resolvedTasks, List.mem_filter]
          refine ⟨hu, ?_⟩
          rw [List.contains_eq_any_beq, List.any_eq_true]
          exact ⟨normalizeOid tid, hioids, by simp [hui]⟩
        rw [containsTask, htasks]
        exact foldl_erase_absent _ s.tasks hT (normalizeOid tid) ⟨u, hures, hui⟩
    · intro u hu hne2
      rw [htasks]
      apply foldl_erase_preserve _ s.tasks u hu
      intro t ht
      have hti := hmemoid t ht
      obtain ⟨tid, htid, hmap⟩ := List.mem_map.mp hti
      rw [← hmap]
      exact hne2 tid htid

/-- Witness for C6 on the concrete store: one resolving and one
non-resolving (well-formed) id give `deleted_count = 1` and delete the
resolving task. -/
theorem batch_delete_contract_witness :
    (admin_batch_delete storeW
        ["aaaaaaaaaaaaaaaaaaaaaaaa", "ffffffffffffffffffffffff"]).2
      = BatchResponse.success 1
    ∧ containsTask
        (admin_batch_delete storeW
          ["aaaaaaaaaaaaaaaaaaaaaaaa", "ffffffffffffffffffffffff"]).1
        (normalizeOid "aaaaaaaaaaaaaaaaaaaaaaaa") = false := by
  have h := (batch_delete_contract storeW
      ["aaaaaaaaaaaaaaaaaaaaaaaa", "ffffffffffffffffffffffff"]
      (by decide) (by decide)).2 (by decide) (by decide)
  refine ⟨?_, h.2.1 "aaaaaaaaaaaaaaaaaaaaaaaa" (by decide)⟩
  rw [h.1]
  decide

/-- The integer formula `(t + p - 1) / p` is the ceiling of `t / p`:
it is the least multiple bound. -/
theorem ceil_div_spec (t p : Nat) (hp : 1 ≤ p) :
    t ≤ ((t + p - 1) / p) * p ∧ ((t + p - 1) / p) * p < t + p := by
  rcases Nat.eq_zero_or_pos t with ht | ht
  · subst ht
    have h0 : (0 + p - 1) / p = 0 := Nat.div_eq_of_lt (by omega)
    rw [h0]
    omega
  · have h1 : t + p - 1 = (t - 1) + p := by omega
    rw [h1, Nat.add_div_right _ (by omega), add_mul, one_mul]
    have h2 := Nat.div_add_mod (t - 1) p
    have h3 : (t - 1) % p < p := Nat.mod_lt _ (show 0 < p by omega)
    have h4 : (t - 1) / p * p = p * ((t - 1) / p) := Nat.mul_comm _ _
    omega

/-- C1, counterexample: on a store containing a completed compress task
without a `result_file_id`, the returned `total` (4) differs from the size
of the selected completed-file set (3), because `count_documents` omits
the `result_file_id` condition used by the `find`. -/
theorem get_all_files_total_counterexample :
    (get_all_files storeW 1 50).total = 4
    ∧ (storeW.tasks.filter completedFileFilter).length = 3
    ∧ (get_all_files storeW 1 50).files.length = 3
    ∧ (get_all_files storeW 1 50).total
        ≠ (storeW.tasks.filter completedFileFilter).length := by decide

/-- C1, amended: pages select exactly the tasks with `type = compress`,
`status = completed` and a present `result_file_id`, ordered by
`created_at` descending with `skip = (page-1)*pageSize`, and concatenating
the pages in order reproduces that set with no duplicates and no gaps;
`totalPages = ceil(total/pageSize)`; but `total` counts the tasks with
`type = compress` and `status = completed` regardless of
`result_file_id`. -/
theorem get_all_files_pagination (s : Store) (pageSize : Nat) (hps : 1 ≤ pageSize) :
    (∀ p, (get_all_files s p pageSize).total = (s.tasks.filter completedFilter).length)
    ∧ (∀ p, (get_all_files s p pageSize).totalPages
        = ((s.tasks.filter completedFilter).length + pageSize - 1) / pageSize)
    ∧ ((s.tasks.filter completedFilter).length
          ≤ (get_all_files s 1 pageSize).totalPages * pageSize
        ∧ (get_all_files s 1 pageSize).totalPages * pageSize
          < (s.tasks.filter completedFilter).length + pageSize)
    ∧ List.Perm (completedFilesSorted s) (s.tasks.filter completedFileFilter)
    ∧ List.Sorted (fun a b : Task => b.createdAt ≤ a.createdAt) (completedFilesSorted s)
    ∧ (∀ p, (get_all_files s p pageSize).files
        = (((completedFilesSorted s).map (fileEntry s)).drop ((p - 1) * pageSize)).take
            pageSize)
    ∧ (∀ n,
        ((List.range n).map (fun i => (get_all_files s (i + 1) pageSize).files)).flatten
          = ((completedFilesSorted s).map (fileEntry s)).take (n * pageSize))
    ∧ (∀ n, (s.tasks.filter completedFileFilter).length ≤ n * pageSize →
        ((List.range n).map (fun i => (get_all_files s (i + 1) pageSize).files)).flatten
          = (completedFilesSorted s).map (fileEntry s)) := by
  have hfiles : ∀ p, (get_all_files s p pageSize).files
      = (((completedFilesSorted s).map (fileEntry s)).drop ((p - 1) * pageSize)).take
          pageSize := by
    intro p
    show (((completedFilesSorted s).drop ((p - 1) * pageSize)).take pageSize).map
        (fileEntry s) = _
    rw [List.map_take, List.map_drop]
  have hjoin : ∀ n,
      ((List.range n).map (fun i => (get_all_files s (i + 1) pageSize).files)).flatten
        = ((completedFilesSorted s).map (fileEntry s)).take (n * pageSize) := by
    intro n
    induction n with
    | zero => simp
    | succ n ih =>
      rw [List.range_succ, List.map_append, List.flatten_append, ih]
      simp only [List.map_cons, List.map_nil, List.flatten_cons, List.flatten_nil,
        List.append_nil]
      rw [hfiles (n + 1)]
      have hidx : n + 1 - 1 = n := rfl
      rw [hidx, Nat.succ_mul, List.take_add]
  have hperm : List.Perm (completedFilesSorted s) (s.tasks.filter completedFileFilter) :=
    List.perm_insertionSort _ _
  refine ⟨fun p => rfl, fun p => rfl, ceil_div_spec _ pageSize hps, hperm, ?_, hfiles,
    hjoin, ?_⟩
  · letI : IsTotal Task (fun a b : Task => b.createdAt ≤ a.createdAt) :=
      ⟨fun a b => le_total b.createdAt a.createdAt⟩
    letI : IsTrans Task (fun a b : Task => b.createdAt ≤ a.createdAt) :=
      ⟨fun _ _ _ h1 h2 => le_trans h2 h1⟩
    exact List.sorted_insertionSort _ _
  · intro n hn
    rw [hjoin n]
    apply List.take_of_length_le
    rw [List.length_map, hperm.length_eq]
    exact hn

/-- Witness for C1 on the concrete store with page size 2: three
completed files split into a page of two and a page of one, and the two
pages concatenate to the whole selected set. -/
theorem get_all_files_pagination_witness :
    (get_all_files storeW 1 2).total = 4
    ∧ (get_all_files storeW 1 2).files.length = 2
    ∧ (get_all_files storeW 2 2).files.length = 1
    ∧ ((List.range 2).map (fun i => (get_all_files storeW (i + 1) 2).files)).flatten
        = (completedFilesSorted storeW).map (fileEntry storeW) := by
  have h := get_all_files_pagination storeW 2 (by decide)
  refine ⟨?_, ?_, ?_, h.2.2.2.2.2.2.2 2 (by decide)⟩
  · rw [h.1 1]
    decide
  · rw [h.2.2.2.2.2.1 1]
    decide
  · rw [h.2.2.2.2.2.1 2]
    decide

/-- With duplicate-free keys, a stored pair is what `getField` reads
back. -/
theorem getField_mem_nodup (d : List (String × String)) (p : String × String)
    (hk : (d.map Prod.fst).Nodup) (hp : p ∈ d) : getField d p.1 = some p.2 := by
  induction d with
  | nil => cases hp
  | cons q d ih =>
    rw [List.map_cons] at hk
    obtain ⟨hq, hd⟩ := List.nodup_cons.mp hk
    rcases List.mem_cons.mp hp with rfl | hp
    · rw [getField, List.find?_cons_of_pos _ (by simp)]
      rfl
    · have hne : (q.1 == p.1) = false := by
        rw [beq_eq_false_iff_ne]
        intro he
        exact hq (he ▸ List.mem_map_of_mem Prod.fst hp)
      rw [getField, List.find?_cons_of_neg _ (by simp [hne])]
      exact ih hd hp

/-- Writing a field with the value it already holds leaves the document
unchanged (keys duplicate-free). -/
theorem setField_self (d : List (String × String)) (k v : String)
    (hk : (d.map Prod.fst).Nodup) (hget : getField d k = some v) :
    setField d k v = d := by
  have hany : d.any (fun p => p.1 == k) = true := by
    rw [getField] at hget
    cases hfind : d.find? (fun p => p.1 == k) with
    | none =>
      rw [hfind] at hget
      simp at hget
    | some q =>
      rw [List.any_eq_true]
      have hq1 := List.find?_some hfind
      have hq2 := List.mem_of_find?_eq_some hfind
      exact ⟨q, hq2, hq1⟩
  rw [setField, if_pos hany]
  have hcong : ∀ p ∈ d, (if p.1 == k then (k, v) else p) = p := by
    rintro ⟨p1, p2⟩ hp
    by_cases hpk : (p1 == k) = true
    · rw [if_pos hpk]
      have hk1 : p1 = k := by simpa using hpk
      have hget2 := getField_mem_nodup d (p1, p2) hk hp
      rw [show (p1, p2).1 = k from hk1] at hget2
      have hv : p2 = v := Option.some.inj (hget2.symm.trans hget)
      rw [hk1, hv]
    · rw [if_neg hpk]
  have h2 := List.map_congr_left hcong
  simpa using h2

/-- A `$set` whose every value already equals the stored one leaves the
document unchanged. -/
theorem applySet_self (upd : List (String × String)) :
    ∀ d : List (String × String), (d.map Prod.fst).Nodup →
      (∀ p ∈ upd, getField d p.1 = some p.2) → applySet d upd = d := by
  induction upd with
  | nil => intro d _ _; rfl
  | cons p upd ih =>
    intro d hk hall
    rw [applySet, List.foldl_cons,
        setField_self d p.1 p.2 hk (hall p (List.mem_cons_self _ _))]
    exact ih d hk (fun q hq => hall q (List.mem_cons_of_mem _ hq))

/-- Such a `$set` also reports no modification. -/
theorem setChanges_eq_false (d upd : List (String × String))
    (hall : ∀ p ∈ upd, getField d p.1 = some p.2) : setChanges d upd = false := by
  rw [setChanges, List.any_eq_false]
  intro p hp
  simp [hall p hp]

/-- Overwriting key `k` does not move `find?` away from any other key. -/
theorem find_key_mapset (k v k1 : String) (hne : k1 ≠ k) :
    ∀ d : List (String × String),
      (d.map (fun p => if p.1 == k then (k, v) else p)).find? (fun p => p.1 == k1)
        = d.find? (fun p => p.1 == k1) := by
  intro d
  induction d with
  | nil => rfl
  | cons q d ih =>
    rw [List.map_cons]
    by_cases hq : (q.1 == k) = true
    · have hqk : q.1 = k := by simpa using hq
      have h1 : ((k, v).1 == k1) = false := by
        rw [beq_eq_false_iff_ne]
        exact fun he => hne he.symm
      have h2 : (q.1 == k1) = false := by
        rw [beq_eq_false_iff_ne, hqk]
        exact fun he => hne he.symm
      rw [if_pos hq, List.find?_cons_of_neg _ (by simp [h1]),
          List.find?_cons_of_neg _ (by simp [h2])]
      exact ih
    · rw [if_neg hq]
      by_cases hq1 : (q.1 == k1) = true
      · rw [List.find?_cons_of_pos _ (by simp [hq1]), List.find?_cons_of_pos _ (by simp [hq1])]
      · rw [List.find?_cons_of_neg _ (by simp [hq1]), List.find?_cons_of_neg _ (by simp [hq1])]
        exact ih

/-- Appending a pair with key `k` does not move `find?` away from any
other key. -/
theorem find_key_append (k v k1 : String) (hne : k1 ≠ k) :
    ∀ d : List (String × String),
      (d ++ [(k, v)]).find? (fun p => p.1 == k1) = d.find? (fun p => p.1 == k1) := by
  intro d
  induction d with
  | nil =>
    have h1 : ((k, v).1 == k1) = false := by
      rw [beq_eq_false_iff_ne]
      exact fun he => hne he.symm
    rw [List.nil_append, List.find?_cons_of_neg _ (by simp [h1])]
  | cons q d ih =>
    rw [List.cons_append]
    by_cases hq1 : (q.1 == k1) = true
    · rw [List.find?_cons_of_pos _ (by simp [hq1]), List.find?_cons_of_pos _ (by simp [hq1])]
    · rw [List.find?_cons_of_neg _ (by simp [hq1]), List.find?_cons_of_neg _ (by simp [hq1])]
      exact ih

/-- `$set` on key `k` leaves every other key's value unchanged. -/
theorem getField_setField_other (d : List (String × String)) (k v k1 : String)
    (hne : k1 ≠ k) : getField (setField d k v) k1 = getField d k1 := by
  rw [setField]
  by_cases hany : d.any (fun p => p.1 == k) = true
  · rw [if_pos hany, getField, find_key_mapset k v k1 hne d]
    rfl
  · rw [if_neg hany, getField, find_key_append k v k1 hne d]
    rfl

/-- A whole `$set` leaves keys absent from the update document
untouched. -/
theorem getField_applySet_other (upd : List (String × String)) :
    ∀ (d : List (String × String)) (k1 : String), (∀ p ∈ upd, p.1 ≠ k1) →
      getField (applySet d upd) k1 = getField d k1 := by
  induction upd with
  | nil => intro d k1 _; rfl
  | cons p upd ih =>
    intro d k1 hall
    rw [applySet, List.foldl_cons]
    have h1 := ih (setField d p.1 p.2) k1 (fun q hq => hall q (List.mem_cons_of_mem _ hq))
    rw [show List.foldl (fun d q => setField d q.1 q.2) (setField d p.1 p.2) upd
        = applySet (setField d p.1 p.2) upd from rfl, h1]
    exact getField_setField_other d p.1 p.2 k1
      (Ne.symm (hall p (List.mem_cons_self _ _)))

/-- With duplicate-free ids, `find?` by a stored document's id returns
that document. -/
theorem find_holiday_of_nodup (hs : List Holiday) (h : Holiday)
    (hn : (hs.map (fun g => g.id)).Nodup) (hmem : h ∈ hs) :
    hs.find? (fun g => g.id == h.id) = some h := by
  induction hs with
  | nil => cases hmem
  | cons g hs ih =>
    rw [List.map_cons] at hn
    obtain ⟨hg, hn2⟩ := List.nodup_cons.mp hn
    rcases List.mem_cons.mp hmem with rfl | hmem
    · rw [List.find?_cons_of_pos _ (by simp)]
    · have hne : (g.id == h.id) = false := by
        rw [beq_eq_false_iff_ne]
        intro he
        exact hg (he ▸ List.mem_map_of_mem (fun g => g.id) hmem)
      rw [List.find?_cons_of_neg _ (by simp [hne])]
      exact ih hn2 hmem

/-- C9, counterexample: a call that creates a document (fresh identifier)
and a call that modifies an existing document return the same report
message, so the report does not distinguish the created outcome from the
modified one. -/
theorem update_holiday_report_counterexample :
    (∀ g ∈ storeH.holidays, g.id ≠ "20250101")
    ∧ (∃ g ∈ storeH.holidays, g.id = "20240101" ∧ getField g.attrs "name" ≠ some "新年")
    ∧ (update_holiday storeH
          (some [("_id", "20250101"), ("name", "開國紀念日")])).1.holidays.length
        = storeH.holidays.length + 1
    ∧ (update_holiday storeH (some [("_id", "20240101"), ("name", "新年")])).1 ≠ storeH
    ∧ (update_holiday storeH (some [("_id", "20250101"), ("name", "開國紀念日")])).2.1
        = (update_holiday storeH (some [("_id", "20240101"), ("name", "新年")])).2.1 := by
  decide

/-- C9, amended: the upsert is an idempotent full-document merge —
resubmitting data identical to the stored document reports no change and
leaves the store untouched, keys absent from the incoming record keep
their stored values, and a fresh identifier appends a new document — but
creation and modification report the same success message; only the
unchanged outcome is distinguished. -/
theorem update_holiday_merge (s : Store) (data : List (String × String)) (docId : String)
    (h : Holiday)
    (hn : (s.holidays.map (fun g => g.id)).Nodup)
    (hid : getField data "_id" = some docId)
    (hk : (h.attrs.map Prod.fst).Nodup) :
    (∀ k1, (∀ p ∈ data.filter (fun p => p.1 != "_id"), p.1 ≠ k1) →
      getField (applySet h.attrs (data.filter (fun p => p.1 != "_id"))) k1
        = getField h.attrs k1)
    ∧ (h ∈ s.holidays → h.id = docId →
        (∀ p ∈ data.filter (fun p => p.1 != "_id"), getField h.attrs p.1 = some p.2) →
        update_holiday s (some data) = (s, "資料無變動", 200))
    ∧ ((∀ g ∈ s.holidays, g.id ≠ docId) →
        (update_holiday s (some data)).1.holidays
          = s.holidays ++ [⟨docId, applySet [] (data.filter (fun p => p.1 != "_id"))⟩]
        ∧ (update_holiday s (some data)).2.1 = "資料已成功儲存") := by
  have hdata_ne : data.isEmpty = false := by
    cases data
    · rw [getField] at hid
      simp at hid
    · rfl
  refine ⟨?_, ?_, ?_⟩
  · intro k1 hk1
    exact getField_applySet_other _ h.attrs k1 hk1
  · intro hmem hdoc hall
    have hfind : s.holidays.find? (fun g => g.id == docId) = some h := by
      rw [← hdoc]
      exact find_holiday_of_nodup s.holidays h hn hmem
    have hupd : updateOneHoliday s.holidays docId (data.filter (fun p => p.1 != "_id"))
        = (s.holidays.map (fun g => if g.id == docId then { g with attrs := h.attrs } else g),
           ⟨none, 0⟩) := by
      rw [updateOneHoliday, hfind]
      show (s.holidays.map (fun g => if g.id == docId then
              { g with attrs := applySet h.attrs (data.filter (fun p => p.1 != "_id")) }
            else g),
            (⟨none, if setChanges h.attrs (data.filter (fun p => p.1 != "_id")) then 1 else 0⟩
              : UpdateResult)) = _
      rw [applySet_self _ h.attrs hk hall, setChanges_eq_false h.attrs _ hall]
      rfl
    have hmap : s.holidays.map
        (fun g => if g.id == docId then { g with attrs := h.attrs } else g) = s.holidays := by
      have hcong : ∀ g ∈ s.holidays,
          (if g.id == docId then { g with attrs := h.attrs } else g) = g := by
        intro g hg
        by_cases hgid : (g.id == docId) = true
        · rw [if_pos hgid]
          have hgh : g = h := by
            apply List.inj_on_of_nodup_map hn hg hmem
            show g.id = h.id
            rw [hdoc]
            simpa using hgid
          rw [hgh]
        · rw [if_neg hgid]
      have h2 := List.map_congr_left hcong
      simpa using h2
    rw [hmap] at hupd
    simp [update_holiday, hdata_ne, hid, hupd]
  · intro hnone
    have hfind : s.holidays.find? (fun g => g.id == docId) = none := by
      apply List.find?_eq_none.mpr
      intro g hg
      simp [hnone g hg]
    have hupd : updateOneHoliday s.holidays docId (data.filter (fun p => p.1 != "_id"))
        = (s.holidays ++ [⟨docId, applySet [] (data.filter (fun p => p.1 != "_id"))⟩],
           ⟨some docId, 0⟩) := by
      rw [updateOneHoliday, hfind]
    constructor <;> simp [update_holiday, hdata_ne, hid, hupd]

/-- Witness for C9: resubmitting the stored record verbatim reports
no change and leaves the concrete store untouched. -/
theorem update_holiday_merge_witness :
    update_holiday storeH (some [("_id", "20240101"), ("name", "元旦")])
      = (storeH, "資料無變動", 200) := by
  have h := (update_holiday_merge storeH [("_id", "20240101"), ("name", "元旦")]
      "20240101" ⟨"20240101", [("name", "元旦")]⟩ (by decide) (by decide) (by decide)).2.1
  exact h (by decide) rfl (by decide)

end Mongo
